import Mathlib

/-
  Verification of the cloud-security-scanner CLI core:
  a shallow embedding of src/base-scanner.js, src/scanner.js (Google Drive),
  src/dropbox-scanner.js and the snapshot cache of src/index.js, together
  with proofs about the embedded functions.
-/

namespace CloudScanner

/-! ## Risk classifier (src/base-scanner.js, analyzeFileName) -/

/-- A single risk entry pushed by analyzeFileName. -/
structure Risk where
  type : String
  severity : String
  description : String
  fileName : String
deriving Repr, DecidableEq

/-- A name matcher standing for one of the source regexes.  Every regex in the
catalog is either an anchored case-insensitive suffix test (written with a
trailing dollar in the source) or an unanchored case-insensitive substring
test; character classes of the form underscore-or-dash are expanded into the
two literal alternatives. -/
inductive NameMatcher where
  | suffixLit (lit : String)
  | insideLit (lit : String)
deriving Repr, DecidableEq

/-- True when pat occurs at the very start of s. -/
def matchAt (pat s : List Char) : Bool :=
  match pat, s with
  | [], _ => true
  | _ :: _, [] => false
  | p :: ps, c :: cs => p == c && matchAt ps cs

/-- True when pat occurs somewhere inside s (naive substring search, the
semantics of an unanchored regex literal). -/
def occursIn (pat : List Char) : List Char → Bool
  | [] => matchAt pat []
  | c :: cs => matchAt pat (c :: cs) || occursIn pat cs

/-- The characters of s lowercased, the toLowerCase step that realizes the
i flag of every catalog regex. -/
def lowerChars (s : String) : List Char :=
  s.toList.map Char.toLower

/-- Case-insensitive match of one regex against the file name, as performed by
pattern.test(file.name) with the i flag: an anchored pattern is a suffix test,
an unanchored one a substring test. -/
def NameMatcher.test (p : NameMatcher) (name : String) : Bool :=
  match p with
  | .suffixLit lit => matchAt lit.toList.reverse (lowerChars name).reverse
  | .insideLit lit => occursIn lit.toList (lowerChars name)

/-- One entry of the riskPatterns catalog. -/
structure RiskRule where
  patterns : List NameMatcher
  type : String
  severity : String
  description : String
deriving Repr, DecidableEq

/-- The fixed riskPatterns catalog of analyzeFileName, in source order. -/
def riskPatterns : List RiskRule := [
  { patterns := [.suffixLit ".env", .suffixLit ".environment", .suffixLit ".env.local",
                 .suffixLit ".env.prod", .suffixLit ".env.production"],
    type := "Environment Configuration File", severity := "HIGH",
    description := "May contain API keys, database passwords, and other secrets" },
  { patterns := [.suffixLit ".key", .suffixLit ".pem", .suffixLit ".crt",
                 .suffixLit ".cer", .suffixLit ".der"],
    type := "Cryptographic Key/Certificate", severity := "HIGH",
    description := "Private keys or certificates that could grant unauthorized access" },
  { patterns := [.suffixLit ".p12", .suffixLit ".pfx", .suffixLit ".jks",
                 .suffixLit ".keystore", .suffixLit ".truststore"],
    type := "Certificate Store", severity := "HIGH",
    description := "Encrypted certificate stores that may contain private keys" },
  { patterns := [.suffixLit "id_rsa", .suffixLit "id_dsa", .suffixLit "id_ecdsa",
                 .suffixLit "id_ed25519", .suffixLit "known_hosts", .suffixLit "authorized_keys"],
    type := "SSH Keys/Config", severity := "HIGH",
    description := "SSH private keys or configuration files for server access" },
  { patterns := [.suffixLit ".aws", .suffixLit "credentials", .suffixLit "aws_credentials",
                 .suffixLit ".s3cfg"],
    type := "AWS/Cloud Credentials", severity := "HIGH",
    description := "Cloud service credentials for AWS, S3, or other providers" },
  { patterns := [.suffixLit "gcloud", .suffixLit ".gcp",
                 .suffixLit "service_account.json", .suffixLit "service-account.json",
                 .insideLit "firebase_adminsdk", .insideLit "firebase-adminsdk"],
    type := "Google Cloud Credentials", severity := "HIGH",
    description := "Google Cloud Platform or Firebase service account keys" },
  { patterns := [.suffixLit ".azure", .suffixLit "azure_credentials", .suffixLit "azure-credentials",
                 .suffixLit ".azureprofile"],
    type := "Azure Credentials", severity := "HIGH",
    description := "Microsoft Azure authentication credentials" },
  { patterns := [.insideLit "password", .insideLit "passwd", .insideLit "pwd",
                 .insideLit "login", .insideLit "auth"],
    type := "Password/Authentication File", severity := "HIGH",
    description := "Filename suggests it contains passwords or authentication data" },
  { patterns := [.insideLit "secret", .insideLit "credential", .insideLit "token",
                 .insideLit "api_key", .insideLit "api-key"],
    type := "Secrets/API Keys", severity := "HIGH",
    description := "Filename suggests it contains authentication secrets or API keys" },
  { patterns := [.suffixLit ".htpasswd", .suffixLit ".netrc", .suffixLit ".pgpass"],
    type := "System Password Files", severity := "HIGH",
    description := "System files containing authentication credentials" },
  { patterns := [.suffixLit ".sql", .suffixLit ".dump", .suffixLit ".db",
                 .suffixLit ".sqlite", .suffixLit ".sqlite3"],
    type := "Database File", severity := "MEDIUM",
    description := "Database files may contain sensitive user data" },
  { patterns := [.suffixLit ".mdb", .suffixLit ".accdb", .suffixLit ".dbf", .suffixLit ".fdb"],
    type := "Desktop Database", severity := "MEDIUM",
    description := "Desktop database files may contain sensitive information" },
  { patterns := [.suffixLit ".bak", .insideLit "backup", .suffixLit ".old",
                 .suffixLit ".orig", .suffixLit ".save"],
    type := "Backup File", severity := "MEDIUM",
    description := "Backup files may contain outdated but sensitive information" },
  { patterns := [.suffixLit ".tar", .suffixLit ".zip", .suffixLit ".7z",
                 .suffixLit ".rar", .suffixLit ".gz", .suffixLit ".tgz"],
    type := "Archive File", severity := "LOW",
    description := "Compressed archives may contain sensitive files" },
  { patterns := [.suffixLit "config", .suffixLit ".config", .suffixLit ".conf",
                 .suffixLit ".ini", .suffixLit ".cfg"],
    type := "Configuration File", severity := "MEDIUM",
    description := "Configuration files may contain sensitive settings" },
  { patterns := [.suffixLit ".properties", .suffixLit ".settings", .suffixLit ".plist"],
    type := "Application Settings", severity := "MEDIUM",
    description := "Application settings files may contain API keys or passwords" },
  { patterns := [.suffixLit ".git", .suffixLit ".svn", .suffixLit ".hg"],
    type := "Version Control Directory", severity := "MEDIUM",
    description := "Version control directories may expose source code history" },
  { patterns := [.suffixLit "dockerfile", .insideLit "docker-compose", .suffixLit ".dockerignore"],
    type := "Docker Configuration", severity := "LOW",
    description := "Docker files may contain build secrets or configuration" },
  { patterns := [.insideLit "tax", .insideLit "salary", .insideLit "payroll",
                 .insideLit "invoice", .insideLit "receipt"],
    type := "Financial Document", severity := "MEDIUM",
    description := "Financial documents contain sensitive personal/business data" },
  { patterns := [.insideLit "social_security", .insideLit "social-security",
                 .insideLit "ssn", .insideLit "passport", .insideLit "license"],
    type := "Identity Document", severity := "HIGH",
    description := "Identity documents contain personally identifiable information" },
  { patterns := [.insideLit "medical", .insideLit "health", .insideLit "patient",
                 .insideLit "diagnosis"],
    type := "Medical Record", severity := "HIGH",
    description := "Medical records contain protected health information" },
  { patterns := [.suffixLit ".pst", .suffixLit ".ost", .suffixLit ".mbox", .suffixLit ".eml"],
    type := "Email Archive", severity := "MEDIUM",
    description := "Email archives may contain sensitive communications" },
  { patterns := [.suffixLit ".msg", .insideLit "mailbox", .insideLit "messages"],
    type := "Email/Message File", severity := "MEDIUM",
    description := "Email or message files may contain private communications" },
  { patterns := [.suffixLit ".npmrc", .suffixLit ".pypirc", .suffixLit ".gemrc",
                 .suffixLit "composer.json"],
    type := "Package Manager Config", severity := "MEDIUM",
    description := "Package manager configs may contain registry credentials" },
  { patterns := [.suffixLit ".kdbx", .suffixLit ".kdb", .suffixLit "keychain", .insideLit "vault"],
    type := "Password Manager File", severity := "HIGH",
    description := "Password manager databases contain encrypted credentials" },
  { patterns := [.suffixLit ".rdp", .suffixLit ".vnc", .suffixLit ".teamviewer"],
    type := "Remote Access Config", severity := "MEDIUM",
    description := "Remote access configuration files may contain connection details" },
  { patterns := [.suffixLit ".log", .insideLit "error", .insideLit "debug", .insideLit "trace"],
    type := "Log File", severity := "LOW",
    description := "Log files may accidentally contain sensitive information" },
  { patterns := [.insideLit "private", .insideLit "confidential", .insideLit "internal",
                 .insideLit "restricted"],
    type := "Classified File", severity := "MEDIUM",
    description := "File marked as private/confidential may contain sensitive information" },
  { patterns := [.suffixLit ".json", .suffixLit ".xml", .suffixLit ".yml",
                 .suffixLit ".yaml", .suffixLit ".toml"],
    type := "Structured Config File", severity := "LOW",
    description := "Structured configuration files may contain sensitive data" },
  { patterns := [.suffixLit "core", .insideLit "crash", .insideLit "minidump", .suffixLit ".dmp"],
    type := "System Crash/Core Dump", severity := "MEDIUM",
    description := "System dumps may contain memory with sensitive data" },
  { patterns := [.suffixLit "history", .suffixLit ".bash_history", .suffixLit ".zsh_history",
                 .suffixLit ".history"],
    type := "Command History", severity := "MEDIUM",
    description := "Command history may contain passwords typed in commands" }
]

/-- The common normalized file record.  Drive records populate mimeType and
parents; Dropbox records (after the conversion in dropbox-scanner.js) populate
path and type.  A field that the provider object does not carry is none. -/
structure FileRecord where
  id : String
  name : String
  mimeType : Option String := none
  path : Option String := none
  type : Option String := none
  size : Option Nat := none
  modifiedTime : Option String := none
  parents : Option (List String) := none
deriving Repr, DecidableEq

/-- True when at least one matcher of the rule hits the name
(patterns.some in the source). -/
def ruleMatches (rule : RiskRule) (name : String) : Bool :=
  rule.patterns.any (fun p => p.test name)

/-- The risk object pushed for one matched rule. -/
def mkRisk (rule : RiskRule) (name : String) : Risk :=
  { type := rule.type, severity := rule.severity,
    description := rule.description, fileName := name }

/-- analyzeFileName of base-scanner.js: walk the catalog in order and push one
risk per rule whose pattern set has a hit on file.name. -/
def analyzeFileName (file : FileRecord) : List Risk :=
  riskPatterns.foldl
    (fun risks rule =>
      if ruleMatches rule file.name then risks ++ [mkRisk rule file.name] else risks)
    []

/-! ## Findings and the severity sort (base-scanner.js, scanAllFiles) -/

/-- One element of this.vulnerableFiles: the record, its risks, and the
resolved display path. -/
structure Finding where
  file : FileRecord
  risks : List Risk
  folderPath : String
deriving Repr, DecidableEq

/-- The severityOrder lookup of the sort comparator: HIGH 3, MEDIUM 2, LOW 1,
anything else 0 (the JS object lookup with fallback zero). -/
def severityOrder (s : String) : Int :=
  if s = "HIGH" then 3 else if s = "MEDIUM" then 2 else if s = "LOW" then 1 else 0

/-- Math.max over the severity ordinals of a finding's risks.  Math.max of an
empty spread is negative infinity; since every ordinal is at least 0, the
start value -1 is an order-faithful stand-in for it. -/
def maxSeverity (fd : Finding) : Int :=
  fd.risks.foldl (fun m r => max m (severityOrder r.severity)) (-1)

/-- Insert x behind every already placed finding whose maximum severity is at
least x's.  Folded over the discovery-ordered list this computes exactly what
Array.prototype.sort with the comparator maxSeverityB - maxSeverityA returns:
a descending, stable sort (sort is specified to be stable). -/
def insertBySeverity (x : Finding) : List Finding → List Finding
  | [] => [x]
  | y :: ys =>
    if maxSeverity x ≤ maxSeverity y then y :: insertBySeverity x ys
    else x :: y :: ys

/-- The this.vulnerableFiles.sort call of scanAllFiles. -/
def sortVulnerable (l : List Finding) : List Finding :=
  l.foldl (fun acc x => insertBySeverity x acc) []

/-- Findings of one maximum severity, in list order. -/
def sevFilter (k : Int) (l : List Finding) : List Finding :=
  l.filter (fun fd => maxSeverity fd == k)

/-! ## Drive scanner (src/scanner.js) -/

/-- The response of drive.files.get with fields name, parents.  parents is
absent (none) for a parentless folder; the id field is not requested. -/
structure FolderMeta where
  name : String
  parents : Option (List String)
deriving Repr, DecidableEq

/-- The remote metadata lookup: none models a failed drive.files.get call
(the exception caught by getFolderPath). -/
structure DriveApi where
  getFile : String → Option FolderMeta

/-- getFolderPath of scanner.js.  The fuel argument bounds the recursion
depth (the JS call stack); each level that fails its own lookup, or has run
out of stack, yields the root path, and deeper results are concatenated with
the folder names below them.  A failure never escapes: every call returns a
path. -/
def getFolderPath (api : DriveApi) : Nat → String → Option (List String) → String
  | 0, _, _ => "/"
  | _fuel + 1, _fileId, none => "/"
  | _fuel + 1, _fileId, some [] => "/"
  | fuel + 1, _fileId, some (p0 :: _) =>
    match api.getFile p0 with
    | none => "/"
    | some folder =>
      match folder.parents with
      | some ps => getFolderPath api fuel "" (some ps) ++ folder.name ++ "/"
      | none => folder.name ++ "/"

/-- The mutable counters and accumulators of BaseScanner. -/
structure ScanState where
  vulnerableFiles : List Finding
  totalFilesScanned : Nat
  totalFilesFetched : Nat
  allFiles : List FileRecord
deriving Repr, DecidableEq

/-- The state set up in the BaseScanner constructor. -/
def initState : ScanState :=
  { vulnerableFiles := [], totalFilesScanned := 0, totalFilesFetched := 0, allFiles := [] }

/-- The body of the per-file loop of DriveScanner.listFiles: count the record,
remember it for tree building, classify it (no folder check is made here), and
on a non-empty risk list resolve the folder path and push a finding. -/
def driveHandleFile (api : DriveApi) (fuel : Nat) (st : ScanState) (file : FileRecord) :
    ScanState :=
  let st1 := { st with totalFilesScanned := st.totalFilesScanned + 1,
                       allFiles := st.allFiles ++ [file] }
  let risks := analyzeFileName file
  if risks.length > 0 then
    let folderPath := getFolderPath api fuel file.id file.parents
    { st1 with vulnerableFiles := st1.vulnerableFiles ++ [⟨file, risks, folderPath⟩] }
  else st1

/-- One page of the drive.files.list response: the files array and whether a
nextPageToken was returned. -/
structure DrivePage where
  files : List FileRecord
  hasNext : Bool
deriving Repr, DecidableEq

/-- DriveScanner.listFiles: fetch pages one at a time, processing each page's
files in order, and recurse while a nextPageToken is present.  A failed page
fetch is not caught and aborts the whole enumeration. -/
def driveListFiles (api : DriveApi) (fuel : Nat) :
    List (Except String DrivePage) → ScanState → Except String ScanState
  | [], st => .ok st
  | .error e :: _, _ => .error e
  | .ok page :: rest, st =>
    let st1 := { st with totalFilesFetched := st.totalFilesFetched + page.files.length }
    let st2 := page.files.foldl (driveHandleFile api fuel) st1
    if page.hasNext then driveListFiles api fuel rest st2 else .ok st2

/-- The Drive folder mime type. -/
def driveFolderMime : String := "application/vnd.google-apps.folder"

/-- The inlined file node of DriveScanner.buildFileTree. -/
structure FileLeaf where
  name : String
  id : String
  mimeType : Option String
  size : Option Nat
  modifiedTime : Option String
deriving Repr, DecidableEq

/-- A value stored in a children map: either a reference to the shared folder
node held in folderCache (JS aliases the node object; the cache entry is the
node), or an inline file node. -/
inductive TreeRef where
  | folderRef (id : String)
  | fileLeaf (leaf : FileLeaf)
deriving Repr, DecidableEq

/-- A folder node as held in this.folderCache. -/
structure FolderEntry where
  name : String
  children : List (String × TreeRef)
  id : String
  parents : List String
deriving Repr, DecidableEq

/-- JS object / Map property write: replace in place when the key exists,
append otherwise. -/
def objSet (m : List (String × α)) (k : String) (v : α) : List (String × α) :=
  match m with
  | [] => [(k, v)]
  | (k', v') :: rest => if k' = k then (k, v) :: rest else (k', v') :: objSet rest k v

/-- JS object / Map property read. -/
def assocGet (m : List (String × α)) (k : String) : Option α :=
  (m.find? (fun p => p.1 == k)).map (fun p => p.2)

/-- The tree produced by DriveScanner.buildFileTree: the root node's children
map plus the folder cache that holds every folder node (children maps inside
the cache are reachable from the root exactly when some attachment chain leads
there). -/
structure DriveTree where
  rootChildren : List (String × TreeRef)
  cache : List (String × FolderEntry)
deriving Repr, DecidableEq

/-- Second pass of buildFileTree for one folder record: attach its cached node
under its primary parent, under the root for a root/absent parent, and nowhere
when the parent id is unknown to the cache. -/
def attachFolder (acc : DriveTree) (f : FileRecord) : DriveTree :=
  match f.parents with
  | some (p0 :: _) =>
    if p0 = "root" ∨ p0 = "" then
      { acc with rootChildren := objSet acc.rootChildren f.name (.folderRef f.id) }
    else
      match assocGet acc.cache p0 with
      | some entry =>
        let updated := { entry with children := objSet entry.children f.name (.folderRef f.id) }
        { acc with cache := objSet acc.cache p0 updated }
      | none => acc
  | _ => { acc with rootChildren := objSet acc.rootChildren f.name (.folderRef f.id) }

/-- The inline file node built for a file record. -/
def fileLeafOf (f : FileRecord) : FileLeaf :=
  { name := f.name, id := f.id, mimeType := f.mimeType, size := f.size,
    modifiedTime := f.modifiedTime }

/-- Third pass of buildFileTree for one file record, mirroring attachFolder. -/
def attachFile (acc : DriveTree) (f : FileRecord) : DriveTree :=
  match f.parents with
  | some (p0 :: _) =>
    if p0 = "root" ∨ p0 = "" then
      { acc with rootChildren := objSet acc.rootChildren f.name (.fileLeaf (fileLeafOf f)) }
    else
      match assocGet acc.cache p0 with
      | some entry =>
        let updated := { entry with children := objSet entry.children f.name (.fileLeaf (fileLeafOf f)) }
        { acc with cache := objSet acc.cache p0 updated }
      | none => acc
  | _ => { acc with rootChildren := objSet acc.rootChildren f.name (.fileLeaf (fileLeafOf f)) }

/-- DriveScanner.buildFileTree: create a cache entry per folder record, then
attach folder nodes to their parents, then attach file nodes. -/
def driveBuildFileTree (allFiles : List FileRecord) : DriveTree :=
  let folders := allFiles.filter (fun f => f.mimeType == some driveFolderMime)
  let cache0 := folders.foldl
    (fun c f => objSet c f.id
      { name := f.name, children := [], id := f.id, parents := f.parents.getD [] }) []
  let t1 := folders.foldl attachFolder { rootChildren := [], cache := cache0 }
  let files := allFiles.filter (fun f => !(f.mimeType == some driveFolderMime))
  files.foldl attachFile t1

/-- The summary block of getScanResults. -/
structure Summary where
  totalFiles : Nat
  vulnerableFiles : Nat
  scanDate : String
  provider : String
deriving Repr, DecidableEq

/-- The ScanResult of the Drive scanner. -/
structure DriveScanResult where
  vulnerableFiles : List Finding
  fileTree : DriveTree
  summary : Summary
deriving Repr, DecidableEq

/-- BaseScanner.scanAllFiles as run by DriveScanner: enumerate, build the
tree, sort the findings by descending maximum severity, and assemble the
result; an enumeration error is rethrown. -/
def driveScanAllFiles (api : DriveApi) (fuel : Nat)
    (pages : List (Except String DrivePage)) (now : String) :
    Except String DriveScanResult :=
  match driveListFiles api fuel pages initState with
  | .error e => .error e
  | .ok st =>
    let sorted := sortVulnerable st.vulnerableFiles
    .ok { vulnerableFiles := sorted,
          fileTree := driveBuildFileTree st.allFiles,
          summary := { totalFiles := st.totalFilesScanned, vulnerableFiles := sorted.length,
                       scanDate := now, provider := "DriveScanner" } }

/-- The findings list of a completed Drive scan (empty when the scan aborts). -/
def driveScanVuln (api : DriveApi) (fuel : Nat)
    (pages : List (Except String DrivePage)) (now : String) : List Finding :=
  match driveScanAllFiles api fuel pages now with
  | .ok r => r.vulnerableFiles
  | .error _ => []

/-- The findings list in discovery order, before the sort. -/
def driveDiscovered (api : DriveApi) (fuel : Nat)
    (pages : List (Except String DrivePage)) : List Finding :=
  match driveListFiles api fuel pages initState with
  | .ok st => st.vulnerableFiles
  | .error _ => []

/-! ## Dropbox scanner (src/dropbox-scanner.js) -/

/-- A raw entry of the Dropbox filesListFolder response (the fields the
scanner reads). -/
structure DropboxEntry where
  tag : String
  id : String
  name : String
  path_display : String
  size : Option Nat
  client_modified : Option String
  server_modified : Option String
deriving Repr, DecidableEq

/-- The conversion of a Dropbox entry to the common format performed inside
DropboxScanner.listFiles. -/
def convertEntry (e : DropboxEntry) : FileRecord :=
  { id := e.id, name := e.name, path := some e.path_display, type := some e.tag,
    size := e.size,
    modifiedTime :=
      match e.client_modified with
      | some s => some s
      | none => e.server_modified }

/-- getDropboxFolderPath: drop the last path segment and rejoin, with the
root path as the fallback for an empty join. -/
def splitChars (sep : Char) : List Char → List (List Char)
  | [] => [[]]
  | c :: cs =>
    let rest := splitChars sep cs
    if c == sep then [] :: rest
    else
      match rest with
      | [] => [[c]]
      | g :: gs => (c :: g) :: gs

/-- JS String.prototype.split with a single-character separator. -/
def jsSplit (sep : Char) (s : String) : List String :=
  (splitChars sep s.toList).map String.mk

/-- getDropboxFolderPath of dropbox-scanner.js. -/
def getDropboxFolderPath (fullPath : String) : String :=
  let joined := String.intercalate "/" (jsSplit '/' fullPath).dropLast
  if joined = "" then "/" else joined

/-- The body of the per-entry loop of DropboxScanner.listFiles: convert,
count, remember; only entries whose tag is file are classified, and a
non-empty risk list pushes a finding. -/
def dropboxHandleEntry (st : ScanState) (e : DropboxEntry) : ScanState :=
  let file := convertEntry e
  let st1 := { st with totalFilesScanned := st.totalFilesScanned + 1,
                       allFiles := st.allFiles ++ [file] }
  if file.type == some "file" then
    let risks := analyzeFileName file
    if risks.length > 0 then
      let folderPath := getDropboxFolderPath e.path_display
      { st1 with vulnerableFiles := st1.vulnerableFiles ++ [⟨file, risks, folderPath⟩] }
    else st1
  else st1

/-- One page of the Dropbox listing: the entries array and the has_more
flag. -/
structure DropboxPage where
  entries : List DropboxEntry
  has_more : Bool
deriving Repr, DecidableEq

/-- DropboxScanner.listFiles: same pagination scheme as the Drive scanner;
the catch block rethrows, so a failed fetch aborts the enumeration. -/
def dropboxListFiles :
    List (Except String DropboxPage) → ScanState → Except String ScanState
  | [], st => .ok st
  | .error e :: _, _ => .error e
  | .ok page :: rest, st =>
    let st1 := { st with totalFilesFetched := st.totalFilesFetched + page.entries.length }
    let st2 := page.entries.foldl dropboxHandleEntry st1
    if page.has_more then dropboxListFiles rest st2 else .ok st2

mutual
/-- A node of the materialized file tree (the JSON shape shared by the
Dropbox tree and the persisted snapshot): a file node or a folder node with
an ordered children object. -/
inductive DNode where
  | file (name : String) (id : String) (mimeType : Option String) (size : Option Nat)
      (modifiedTime : Option String) : DNode
  | folder (name : String) (children : DChildren) (id : String) (path : Option String)
      (parents : Option (List String)) : DNode
inductive DChildren where
  | nil : DChildren
  | cons (key : String) (node : DNode) (rest : DChildren) : DChildren
end

/-- Children object read. -/
def dchildGet : DChildren → String → Option DNode
  | .nil, _ => none
  | .cons k n rest, key => if k = key then some n else dchildGet rest key

/-- Children object write (replace in place or append, JS property order). -/
def dchildSet : DChildren → String → DNode → DChildren
  | .nil, key, v => .cons key v .nil
  | .cons k n rest, key, v =>
    if k = key then .cons key v rest else .cons k n (dchildSet rest key v)

/-- The inner loop of DropboxScanner.buildFileTree for one record: walk the
path segments from the given node, creating a missing child per segment (a
file node at the last segment of a file record, a folder node otherwise), and
descend unless the last segment of a file record was reached.  Descending
into a file node dereferences an undefined children object in the source and
throws; that is the none result. -/
def dropboxInsert (f : FileRecord) : List String → String → DNode → Option DNode
  | [], _, node => some node
  | part :: rest, pref, node =>
    match node with
    | .file _ _ _ _ _ => none
    | .folder name ch id path parents =>
      let pref1 := if pref = "" then part else pref ++ "/" ++ part
      let isLast := rest.isEmpty
      let ch1 :=
        match dchildGet ch part with
        | some _ => ch
        | none =>
          let newNode : DNode :=
            if isLast && (f.type == some "file") then
              .file part f.id none f.size f.modifiedTime
            else
              .folder part .nil (if f.id = "" then "folder-" ++ part else f.id)
                (some pref1) none
          dchildSet ch part newNode
      if !isLast || (f.type == some "folder") then
        match dchildGet ch1 part with
        | none => none
        | some child =>
          match dropboxInsert f rest pref1 child with
          | none => none
          | some child1 => some (.folder name (dchildSet ch1 part child1) id path parents)
      else
        some (.folder name ch1 id path parents)

/-- The root node set up in the DropboxScanner constructor. -/
def dropboxRoot : DNode := .folder "Dropbox" .nil "root" none none

/-- The truthy path segments of a record's full path
(file.path.split then filter). -/
def pathParts (p : String) : List String :=
  (jsSplit '/' p).filter (fun s => !(s == ""))

/-- DropboxScanner.buildFileTree: insert every stored record into the tree by
its path segments; none models the TypeError thrown when navigation descends
into a file node (or a record without a path is split). -/
def dropboxBuildFileTree (allFiles : List FileRecord) : Option DNode :=
  allFiles.foldl
    (fun acc f =>
      match acc with
      | none => none
      | some t =>
        match f.path with
        | none => none
        | some p => dropboxInsert f (pathParts p) "" t)
    (some dropboxRoot)

/-- The ScanResult shape shared by the Dropbox scanner and the snapshot cache
(vulnerableFiles, fileTree, summary). -/
structure ScanResults where
  vulnerableFiles : List Finding
  fileTree : DNode
  summary : Summary

/-- BaseScanner.scanAllFiles as run by DropboxScanner. -/
def dropboxScanAllFiles (pages : List (Except String DropboxPage)) (now : String) :
    Except String ScanResults :=
  match dropboxListFiles pages initState with
  | .error e => .error e
  | .ok st =>
    match dropboxBuildFileTree st.allFiles with
    | none => .error "TypeError"
    | some tree =>
      let sorted := sortVulnerable st.vulnerableFiles
      .ok { vulnerableFiles := sorted, fileTree := tree,
            summary := { totalFiles := st.totalFilesScanned,
                         vulnerableFiles := sorted.length,
                         scanDate := now, provider := "DropboxScanner" } }

/-- The findings list of a completed Dropbox scan (empty when the scan
aborts). -/
def dropboxScanVuln (pages : List (Except String DropboxPage)) (now : String) :
    List Finding :=
  match dropboxScanAllFiles pages now with
  | .ok r => r.vulnerableFiles
  | .error _ => []

/-! ## Shared predicates and concrete claim inputs -/

/-- The three catalog severities (the sort comparator maps anything else to
the fallback ordinal 0). -/
def sevValid (s : String) : Prop := s = "HIGH" ∨ s = "MEDIUM" ∨ s = "LOW"

instance (s : String) : Decidable (sevValid s) := by
  unfold sevValid
  infer_instance

/-- A per-finding invariant holding of a scanner state's findings list. -/
def VulnInv (Q : Finding → Prop) (st : ScanState) : Prop :=
  ∀ fd ∈ st.vulnerableFiles, Q fd

/-- Whether an Except value is a success. -/
def exceptOk {α : Type} : Except String α → Bool
  | .ok _ => true
  | .error _ => false

/-- Every modeled Drive page fetch succeeds. -/
def allOkDrive (pages : List (Except String DrivePage)) : Bool :=
  pages.all exceptOk

/-- The Drive enumeration reaches a failed page fetch (pages after one
without a nextPageToken are never requested). -/
def driveEnumFails : List (Except String DrivePage) → Bool
  | [] => false
  | .error _ :: _ => true
  | .ok p :: rest => p.hasNext && driveEnumFails rest

/-- The Dropbox enumeration reaches a failed page fetch. -/
def dropboxEnumFails : List (Except String DropboxPage) → Bool
  | [] => false
  | .error _ :: _ => true
  | .ok p :: rest => p.has_more && dropboxEnumFails rest

/-- The id carried by a children-map value (the aliased folder node's id or
the inline file node's id). -/
def refId : TreeRef → String
  | .folderRef i => i
  | .fileLeaf leaf => leaf.id

/-- The ids of the fetched folder records, the keys of folderCache. -/
def folderIds (allFiles : List FileRecord) : List String :=
  (allFiles.filter (fun f => f.mimeType == some driveFolderMime)).map (fun f => f.id)

/-- An api every metadata lookup of which fails. -/
def nullApi : DriveApi := ⟨fun _ => none⟩

/-- An api where folder p1 resolves to a folder named docs whose own parent
p2 cannot be resolved. -/
def c5Api : DriveApi :=
  ⟨fun i => if i = "p1" then some { name := "docs", parents := some ["p2"] } else none⟩

/-- A folder record whose name matches the password rule. -/
def c1DriveFolder : FileRecord :=
  { id := "f1", name := "passwords", mimeType := some driveFolderMime,
    parents := some ["root"] }

/-- A folder entry with a matching name. -/
def c1FolderEntry : DropboxEntry :=
  { tag := "folder", id := "id:f", name := "passwords", path_display := "/passwords",
    size := none, client_modified := none, server_modified := none }

/-- A sensitive file entry. -/
def c1FileEntry : DropboxEntry :=
  { tag := "file", id := "id:e", name := ".env", path_display := "/passwords/.env",
    size := some 12, client_modified := some "2024-01-01T00:00:00Z",
    server_modified := none }

/-- A one-page Dropbox listing holding the folder entry with a matching name
and one sensitive file entry. -/
def c1Pages : List (Except String DropboxPage) :=
  [.ok { entries := [c1FolderEntry, c1FileEntry], has_more := false }]

/-- The finding the Dropbox scan of c1Pages produces. -/
def c1Finding : Finding :=
  { file := { id := "id:e", name := ".env", path := some "/passwords/.env",
              type := some "file", size := some 12,
              modifiedTime := some "2024-01-01T00:00:00Z" },
    risks := [{ type := "Environment Configuration File", severity := "HIGH",
                description := "May contain API keys, database passwords, and other secrets",
                fileName := ".env" }],
    folderPath := "/passwords" }

/-- A file record whose single parent id resolves to no fetched folder. -/
def c2File : FileRecord :=
  { id := "x1", name := "orphan.txt", parents := some ["missing"] }

/-- A record matching two MEDIUM rules. -/
def c9File : FileRecord := { id := "d1", name := "backup.sql" }

/-- A one-page Drive listing holding c9File. -/
def c9Pages : List (Except String DrivePage) :=
  [.ok { files := [c9File], hasNext := false }]

/-- The first risk of the c9 finding. -/
def c9Risk : Risk :=
  { type := "Database File", severity := "MEDIUM",
    description := "Database files may contain sensitive user data",
    fileName := "backup.sql" }

/-- The finding the Drive scan of c9Pages produces. -/
def c9Finding : Finding :=
  { file := c9File,
    risks := [{ type := "Database File", severity := "MEDIUM",
                description := "Database files may contain sensitive user data",
                fileName := "backup.sql" },
              { type := "Backup File", severity := "MEDIUM",
                description := "Backup files may contain outdated but sensitive information",
                fileName := "backup.sql" }],
    folderPath := "/" }

/-- The record set of the flat-path scenario: folders a, a/b, a/c and the
files a/b/secret.key, a/c/readme.txt, in listing order. -/
def c6Records : List FileRecord := [
  { id := "id:a", name := "a", path := some "/a", type := some "folder" },
  { id := "id:b", name := "b", path := some "/a/b", type := some "folder" },
  { id := "id:c", name := "c", path := some "/a/c", type := some "folder" },
  { id := "id:sk", name := "secret.key", path := some "/a/b/secret.key", type := some "file" },
  { id := "id:rt", name := "readme.txt", path := some "/a/c/readme.txt", type := some "file" }]

/-- The attachment skeleton shared verbatim by the folder pass and the file
pass of DriveScanner.buildFileTree; the two passes differ only in the node
value written into the children map. -/
def attachGeneric (ref : FileRecord → TreeRef) (acc : DriveTree) (f : FileRecord) :
    DriveTree :=
  match f.parents with
  | some (p0 :: _) =>
    if p0 = "root" ∨ p0 = "" then
      { acc with rootChildren := objSet acc.rootChildren f.name (ref f) }
    else
      match assocGet acc.cache p0 with
      | some entry =>
        let updated := { entry with children := objSet entry.children f.name (ref f) }
        { acc with cache := objSet acc.cache p0 updated }
      | none => acc
  | _ => { acc with rootChildren := objSet acc.rootChildren f.name (ref f) }

/-- Every cache key is the id of a fetched folder record. -/
def cacheKeysOk (allFiles : List FileRecord) (t : DriveTree) : Prop :=
  ∀ ce ∈ t.cache, ce.1 ∈ folderIds allFiles

/-- No children-map value anywhere in the tree references id i. -/
def noRefTo (i : String) (t : DriveTree) : Prop :=
  (∀ p ∈ t.rootChildren, refId p.2 ≠ i)
  ∧ ∀ ce ∈ t.cache, ∀ p ∈ ce.2.children, refId p.2 ≠ i

/-- A folder record attached under the root, listed next to c2File. -/
def c2Folder : FileRecord :=
  { id := "fa", name := "A", mimeType := some driveFolderMime, parents := some ["root"] }

/-- A record set holding one well-attached folder and one record with an
unknown parent id. -/
def c2Files : List FileRecord := [c2Folder, c2File]

/-- The tree the flat-path scenario must produce. -/
def c6Expected : DNode :=
  .folder "Dropbox"
    (.cons "a"
      (.folder "a"
        (.cons "b"
          (.folder "b"
            (.cons "secret.key" (.file "secret.key" "id:sk" none none none) .nil)
            "id:b" (some "a/b") none)
          (.cons "c"
            (.folder "c"
              (.cons "readme.txt" (.file "readme.txt" "id:rt" none none none) .nil)
              "id:c" (some "a/c") none)
            .nil))
        "id:a" (some "a") none)
      .nil)
    "root" none none

mutual
/-- A JSON value, the persisted snapshot format written by JSON.stringify and
read back by JSON.parse. -/
inductive Json where
  | null : Json
  | str (s : String) : Json
  | num (n : Int) : Json
  | arr (xs : List Json) : Json
  | obj (fields : JFields) : Json
/-- The ordered properties of a JSON object. -/
inductive JFields where
  | nil : JFields
  | cons (key : String) (value : Json) (rest : JFields) : JFields
end

/-- Optional object property: a none value is omitted entirely, as
JSON.stringify omits properties whose value is undefined. -/
def optField (k : String) (o : Option Json) (rest : JFields) : JFields :=
  match o with
  | none => rest
  | some j => .cons k j rest

/-- The serialized form of a normalized file record (properties the record
does not carry are absent). -/
def encodeFileRecord (f : FileRecord) : Json :=
  .obj (.cons "id" (.str f.id) (.cons "name" (.str f.name)
    (optField "mimeType" (f.mimeType.map .str)
    (optField "path" (f.path.map .str)
    (optField "type" (f.type.map .str)
    (optField "size" (f.size.map (fun n => .num (.ofNat n)))
    (optField "modifiedTime" (f.modifiedTime.map .str)
    (optField "parents" (f.parents.map (fun ps => .arr (ps.map .str))) .nil))))))))

/-- The serialized form of one risk entry. -/
def encodeRisk (r : Risk) : Json :=
  .obj (.cons "type" (.str r.type) (.cons "severity" (.str r.severity)
    (.cons "description" (.str r.description) (.cons "fileName" (.str r.fileName) .nil))))

/-- The serialized form of one finding. -/
def encodeFinding (fd : Finding) : Json :=
  .obj (.cons "file" (encodeFileRecord fd.file)
    (.cons "risks" (.arr (fd.risks.map encodeRisk))
    (.cons "folderPath" (.str fd.folderPath) .nil)))

/-- The serialized summary block. -/
def encodeSummary (s : Summary) : Json :=
  .obj (.cons "totalFiles" (.num (.ofNat s.totalFiles))
    (.cons "vulnerableFiles" (.num (.ofNat s.vulnerableFiles))
    (.cons "scanDate" (.str s.scanDate) (.cons "provider" (.str s.provider) .nil))))

mutual
/-- The serialized form of a tree node. -/
def encodeDNode : DNode → Json
  | .file name id mt sz mo =>
    .obj (.cons "name" (.str name) (.cons "type" (.str "file") (.cons "id" (.str id)
      (optField "mimeType" (mt.map .str)
      (optField "size" (sz.map (fun n => .num (.ofNat n)))
      (optField "modifiedTime" (mo.map .str) .nil))))))
  | .folder name ch id path parents =>
    .obj (.cons "name" (.str name) (.cons "type" (.str "folder")
      (.cons "children" (.obj (encodeDChildren ch)) (.cons "id" (.str id)
      (optField "path" (path.map .str)
      (optField "parents" (parents.map (fun ps => .arr (ps.map .str))) .nil))))))
/-- The serialized children object. -/
def encodeDChildren : DChildren → JFields
  | .nil => .nil
  | .cons k n rest => .cons k (encodeDNode n) (encodeDChildren rest)
end

/-- The serialized ScanResult, the JSON.stringify(scanResults) payload. -/
def encodeScanResults (r : ScanResults) : Json :=
  .obj (.cons "vulnerableFiles" (.arr (r.vulnerableFiles.map encodeFinding))
    (.cons "fileTree" (encodeDNode r.fileTree)
    (.cons "summary" (encodeSummary r.summary) .nil)))

/-- Positional parse of an optional string property as the encoder emits it. -/
def takeStr (k : String) (fs : JFields) : Option String × JFields :=
  match fs with
  | .cons k' (.str s) rest => if k' = k then (some s, rest) else (none, fs)
  | _ => (none, fs)

/-- Positional parse of an optional natural-number property. -/
def takeNat (k : String) (fs : JFields) : Option Nat × JFields :=
  match fs with
  | .cons k' (.num (.ofNat n)) rest => if k' = k then (some n, rest) else (none, fs)
  | _ => (none, fs)

/-- All-strings array payload. -/
def jStrList : List Json → Option (List String)
  | [] => some []
  | .str s :: rest => (jStrList rest).map (fun l => s :: l)
  | _ => none

/-- Positional parse of an optional string-array property. -/
def takeStrList (k : String) (fs : JFields) : Option (List String) × JFields :=
  match fs with
  | .cons k' (.arr xs) rest =>
    if k' = k then
      match jStrList xs with
      | some l => (some l, rest)
      | none => (none, fs)
    else (none, fs)
  | _ => (none, fs)

/-- Parse of a serialized file record. -/
def decodeFileRecord : Json → Option FileRecord
  | .obj (.cons "id" (.str id) (.cons "name" (.str name) rest)) =>
    let p1 := takeStr "mimeType" rest
    let p2 := takeStr "path" p1.2
    let p3 := takeStr "type" p2.2
    let p4 := takeNat "size" p3.2
    let p5 := takeStr "modifiedTime" p4.2
    let p6 := takeStrList "parents" p5.2
    match p6.2 with
    | .nil =>
      some { id := id, name := name, mimeType := p1.1, path := p2.1,
             type := p3.1, size := p4.1, modifiedTime := p5.1, parents := p6.1 }
    | _ => none
  | _ => none

/-- Parse of a serialized risk entry. -/
def decodeRisk : Json → Option Risk
  | .obj (.cons "type" (.str t) (.cons "severity" (.str sv)
      (.cons "description" (.str d) (.cons "fileName" (.str fn) .nil)))) =>
    some { type := t, severity := sv, description := d, fileName := fn }
  | _ => none

/-- Parse of a serialized risks array. -/
def decodeRisks : List Json → Option (List Risk)
  | [] => some []
  | j :: rest =>
    match decodeRisk j, decodeRisks rest with
    | some r, some rs => some (r :: rs)
    | _, _ => none

/-- Parse of a serialized finding. -/
def decodeFinding : Json → Option Finding
  | .obj (.cons "file" fj (.cons "risks" (.arr rjs)
      (.cons "folderPath" (.str fp) .nil))) =>
    match decodeFileRecord fj, decodeRisks rjs with
    | some f, some rs => some { file := f, risks := rs, folderPath := fp }
    | _, _ => none
  | _ => none

/-- Parse of a serialized findings array. -/
def decodeFindings : List Json → Option (List Finding)
  | [] => some []
  | j :: rest =>
    match decodeFinding j, decodeFindings rest with
    | some fd, some fds => some (fd :: fds)
    | _, _ => none

/-- Parse of a serialized summary block. -/
def decodeSummary : Json → Option Summary
  | .obj (.cons "totalFiles" (.num (.ofNat tf))
      (.cons "vulnerableFiles" (.num (.ofNat vf))
      (.cons "scanDate" (.str sd) (.cons "provider" (.str pv) .nil)))) =>
    some { totalFiles := tf, vulnerableFiles := vf, scanDate := sd, provider := pv }
  | _ => none

mutual
/-- Parse of a serialized tree node. -/
def decodeDNode : Json → Option DNode
  | .obj (.cons "name" (.str name) (.cons "type" (.str "file")
      (.cons "id" (.str id) rest))) =>
    let p1 := takeStr "mimeType" rest
    let p2 := takeNat "size" p1.2
    let p3 := takeStr "modifiedTime" p2.2
    match p3.2 with
    | .nil => some (.file name id p1.1 p2.1 p3.1)
    | _ => none
  | .obj (.cons "name" (.str name) (.cons "type" (.str "folder")
      (.cons "children" (.obj cfs) (.cons "id" (.str id) rest)))) =>
    match decodeDChildren cfs with
    | none => none
    | some ch =>
      let p1 := takeStr "path" rest
      let p2 := takeStrList "parents" p1.2
      match p2.2 with
      | .nil => some (.folder name ch id p1.1 p2.1)
      | _ => none
  | _ => none
/-- Parse of a serialized children object. -/
def decodeDChildren : JFields → Option DChildren
  | .nil => some .nil
  | .cons k cj rest =>
    match decodeDNode cj, decodeDChildren rest with
    | some n, some ch => some (.cons k n ch)
    | _, _ => none
end

/-- Parse of a serialized ScanResult (the JSON.parse of a cache read; any
shape mismatch is a failed load). -/
def decodeScanResults : Json → Option ScanResults
  | .obj (.cons "vulnerableFiles" (.arr fjs) (.cons "fileTree" tj
      (.cons "summary" sj .nil))) =>
    match decodeFindings fjs, decodeDNode tj, decodeSummary sj with
    | some fds, some tree, some sm =>
      some { vulnerableFiles := fds, fileTree := tree, summary := sm }
    | _, _, _ => none
  | _ => none

/-- The per-provider snapshot store: parsed cache file content keyed by the
provider's cache path. -/
abbrev Store := List (String × Json)

/-- Writing the snapshot: fs.writeFile of JSON.stringify(scanResults) to the
provider key's cache path, overwriting any prior snapshot. -/
def saveSnapshot (key : String) (r : ScanResults) (store : Store) : Store :=
  objSet store key (encodeScanResults r)

/-- Reading the snapshot back: readFile then JSON.parse; none when the key is
missing or the stored value does not parse into a ScanResult. -/
def loadSnapshot (key : String) (store : Store) : Option ScanResults :=
  (assocGet store key).bind decodeScanResults

/-- The scan command path of index.js around scanAllFiles: on success the
snapshot is written (options.cache defaults to true), on failure the error
reaches the outer catch and the store is left untouched. -/
def dropboxScanAction (pages : List (Except String DropboxPage)) (now : String)
    (store : Store) : Except String ScanResults × Store :=
  match dropboxScanAllFiles pages now with
  | .error e => (.error e, store)
  | .ok r => (.ok r, saveSnapshot "dropbox" r store)

/-- Key of the head property differs from k (the only fact positional
parsing of an absent optional property needs). -/
def headKeyNe (k : String) : JFields → Prop
  | .nil => True
  | .cons k' _ _ => k' ≠ k

/-- A Dropbox listing whose very first page fetch fails. -/
def c8Pages : List (Except String DropboxPage) := [.error "network down"]

/-- A Drive listing whose second page fetch fails. -/
def c8DrivePages : List (Except String DrivePage) :=
  [.ok { files := [], hasNext := true }, .error "rate limited"]

theorem analyze_foldl_eq (name : String) (rules : List RiskRule) (acc : List Risk) :
    rules.foldl
      (fun risks rule =>
        if ruleMatches rule name then risks ++ [mkRisk rule name] else risks) acc
      = acc ++ (rules.filter (fun rule => ruleMatches rule name)).map
          (fun rule => mkRisk rule name) := by
  induction rules generalizing acc with
  | nil => simp
  | cons r rs ih =>
    by_cases h : ruleMatches r name
    · simp [List.foldl_cons, h, ih, List.filter_cons]
    · simp [List.foldl_cons, h, ih, List.filter_cons]

/-- C4: the classifier tests only the record's name, case-insensitively,
against every rule of the fixed catalog in catalog order; the resulting risk
list is exactly one entry per matched rule, in catalog order, so a name
matching exactly k rules yields exactly k risks. -/
theorem classifier_matches_catalog_in_order (f : FileRecord) :
    analyzeFileName f
      = (riskPatterns.filter (fun rule => ruleMatches rule f.name)).map
          (fun rule => mkRisk rule f.name)
    ∧ (analyzeFileName f).length
      = (riskPatterns.filter (fun rule => ruleMatches rule f.name)).length := by
  have h := analyze_foldl_eq f.name riskPatterns []
  refine ⟨?_, ?_⟩
  · simpa [analyzeFileName] using h
  · simp [analyzeFileName, h]

/-- C10: classification is a function of the name field alone: two records
with equal names get equal risk lists, whatever their id, size, path,
mimeType, modifiedTime or parents are, and no scanner state is consulted. -/
theorem classifier_depends_only_on_name (f g : FileRecord) (h : f.name = g.name) :
    analyzeFileName f = analyzeFileName g := by
  simp only [analyzeFileName, h]

theorem classifier_depends_only_on_name_witness :
    ({ id := "a1", name := "notes-password.txt", size := some 10,
       mimeType := some "text/plain" } : FileRecord).name
      = ({ id := "b2", name := "notes-password.txt", path := some "/x/notes-password.txt",
           type := some "file" } : FileRecord).name
    ∧ analyzeFileName { id := "a1", name := "notes-password.txt", size := some 10,
                        mimeType := some "text/plain" }
      = analyzeFileName { id := "b2", name := "notes-password.txt",
                          path := some "/x/notes-password.txt", type := some "file" } :=
  ⟨rfl, classifier_depends_only_on_name _ _ rfl⟩

theorem insertBySeverity_cons_le {x y : Finding} {ys : List Finding}
    (hc : maxSeverity x ≤ maxSeverity y) :
    insertBySeverity x (y :: ys) = y :: insertBySeverity x ys := by
  simp [insertBySeverity, if_pos hc]

theorem insertBySeverity_cons_gt {x y : Finding} {ys : List Finding}
    (hc : ¬maxSeverity x ≤ maxSeverity y) :
    insertBySeverity x (y :: ys) = x :: y :: ys := by
  simp only [insertBySeverity, if_neg hc]

theorem mem_insertBySeverity {z x : Finding} {l : List Finding}
    (h : z ∈ insertBySeverity x l) : z = x ∨ z ∈ l := by
  induction l with
  | nil => simpa [insertBySeverity] using h
  | cons y ys ih =>
    by_cases hc : maxSeverity x ≤ maxSeverity y
    · rw [insertBySeverity_cons_le hc] at h
      rcases List.mem_cons.mp h with rfl | h
      · exact Or.inr (List.mem_cons_self _ _)
      · rcases ih h with h | h
        · exact Or.inl h
        · exact Or.inr (List.mem_cons_of_mem _ h)
    · rw [insertBySeverity_cons_gt hc] at h
      rcases List.mem_cons.mp h with rfl | h
      · exact Or.inl rfl
      · exact Or.inr h

theorem insertBySeverity_perm (x : Finding) (l : List Finding) :
    (insertBySeverity x l).Perm (x :: l) := by
  induction l with
  | nil => simp [insertBySeverity]
  | cons y ys ih =>
    by_cases hc : maxSeverity x ≤ maxSeverity y
    · rw [insertBySeverity_cons_le hc]
      exact (ih.cons y).trans (List.Perm.swap x y ys)
    · rw [insertBySeverity_cons_gt hc]

theorem pairwise_insertBySeverity {x : Finding} {l : List Finding}
    (h : l.Pairwise (fun a b => maxSeverity b ≤ maxSeverity a)) :
    (insertBySeverity x l).Pairwise (fun a b => maxSeverity b ≤ maxSeverity a) := by
  induction l with
  | nil => simp [insertBySeverity]
  | cons y ys ih =>
    rcases List.pairwise_cons.mp h with ⟨hy, hys⟩
    by_cases hc : maxSeverity x ≤ maxSeverity y
    · rw [insertBySeverity_cons_le hc]
      refine List.pairwise_cons.mpr ⟨?_, ih hys⟩
      intro z hz
      rcases mem_insertBySeverity hz with rfl | hz
      · exact hc
      · exact hy z hz
    · rw [insertBySeverity_cons_gt hc]
      refine List.pairwise_cons.mpr ⟨?_, h⟩
      intro z hz
      rcases List.mem_cons.mp hz with rfl | hz
      · exact le_of_lt (lt_of_not_le hc)
      · exact le_trans (hy z hz) (le_of_lt (lt_of_not_le hc))

theorem sevFilter_nil (k : Int) : sevFilter k [] = [] := rfl

theorem sevFilter_cons (k : Int) (y : Finding) (t : List Finding) :
    sevFilter k (y :: t)
      = if maxSeverity y = k then y :: sevFilter k t else sevFilter k t := by
  by_cases h : maxSeverity y = k <;> simp [sevFilter, List.filter_cons, h]

theorem sevFilter_insertBySeverity {x : Finding} {l : List Finding}
    (h : l.Pairwise (fun a b => maxSeverity b ≤ maxSeverity a)) (k : Int) :
    sevFilter k (insertBySeverity x l)
      = if maxSeverity x = k then sevFilter k l ++ [x] else sevFilter k l := by
  induction l with
  | nil =>
    by_cases hk : maxSeverity x = k <;>
      simp [insertBySeverity, sevFilter, List.filter_cons, hk]
  | cons y ys ih =>
    rcases List.pairwise_cons.mp h with ⟨hy, hys⟩
    have hrec := ih hys
    by_cases hc : maxSeverity x ≤ maxSeverity y
    · rw [insertBySeverity_cons_le hc, sevFilter_cons, sevFilter_cons, hrec]
      by_cases hyk : maxSeverity y = k <;> by_cases hk : maxSeverity x = k <;>
        simp [hyk, hk]
    · rw [insertBySeverity_cons_gt hc, sevFilter_cons]
      by_cases hk : maxSeverity x = k
      · have hnil : sevFilter k (y :: ys) = [] := by
          refine List.filter_eq_nil_iff.mpr ?_
          intro z hz
          have hzy : maxSeverity z ≤ maxSeverity y := by
            rcases List.mem_cons.mp hz with rfl | hz
            · exact le_refl _
            · exact hy z hz
          have hlt : maxSeverity y < maxSeverity x := lt_of_not_le hc
          simp only [beq_iff_eq]
          omega
        simp [hk, hnil]
      · simp [hk]

theorem sortVulnerable_invariant (l acc : List Finding)
    (hacc : acc.Pairwise (fun a b => maxSeverity b ≤ maxSeverity a)) :
    (l.foldl (fun acc x => insertBySeverity x acc) acc).Pairwise
        (fun a b => maxSeverity b ≤ maxSeverity a)
    ∧ ∀ k, sevFilter k (l.foldl (fun acc x => insertBySeverity x acc) acc)
        = sevFilter k acc ++ sevFilter k l := by
  induction l generalizing acc with
  | nil => simp [hacc, sevFilter]
  | cons x xs ih =>
    have hstep := ih (insertBySeverity x acc) (pairwise_insertBySeverity hacc)
    refine ⟨hstep.1, ?_⟩
    intro k
    have h1 := hstep.2 k
    have h2 := sevFilter_insertBySeverity (x := x) hacc k
    rw [List.foldl_cons, h1, h2, sevFilter_cons]
    by_cases hk : maxSeverity x = k <;> simp [hk, List.append_assoc]

theorem sortVulnerable_perm (l : List Finding) : (sortVulnerable l).Perm l := by
  suffices h : ∀ acc : List Finding,
      (l.foldl (fun acc x => insertBySeverity x acc) acc).Perm (acc ++ l) by
    simpa [sortVulnerable] using h []
  induction l with
  | nil => intro acc; simp
  | cons x xs ih =>
    intro acc
    have h1 := ih (insertBySeverity x acc)
    have h2 : (insertBySeverity x acc ++ xs).Perm ((x :: acc) ++ xs) :=
      (insertBySeverity_perm x acc).append_right xs
    have h3 : ((x :: acc) ++ xs).Perm (acc ++ x :: xs) := by
      simpa using List.perm_middle.symm
    exact (h1.trans h2).trans h3

theorem foldl_preserve {α β : Type} {P : β → Prop} (step : β → α → β) (l : List α)
    (init : β) (h0 : P init) (hstep : ∀ b a, P b → P (step b a)) :
    P (l.foldl step init) := by
  induction l generalizing init with
  | nil => exact h0
  | cons x xs ih => exact ih (step init x) (hstep init x h0)

theorem sortVulnerable_pairwise (l : List Finding) :
    (sortVulnerable l).Pairwise (fun a b => maxSeverity b ≤ maxSeverity a) :=
  (sortVulnerable_invariant l [] List.Pairwise.nil).1

theorem sortVulnerable_sevFilter (l : List Finding) (k : Int) :
    sevFilter k (sortVulnerable l) = sevFilter k l := by
  have h := (sortVulnerable_invariant l [] List.Pairwise.nil).2 k
  simpa [sortVulnerable, sevFilter] using h

theorem step_vuln_inv {Q : Finding → Prop} {st st' : ScanState}
    (h : st'.vulnerableFiles = st.vulnerableFiles
        ∨ ∃ fd, st'.vulnerableFiles = st.vulnerableFiles ++ [fd] ∧ Q fd)
    (hst : VulnInv Q st) : VulnInv Q st' := by
  rcases h with h | ⟨fd, h, hq⟩ <;> intro z hz
  · exact hst z (h ▸ hz)
  · rw [h] at hz
    rcases List.mem_append.mp hz with hz | hz
    · exact hst z hz
    · rw [List.mem_singleton.mp hz]
      exact hq

theorem dropboxHandleEntry_vuln (st : ScanState) (e : DropboxEntry) :
    (dropboxHandleEntry st e).vulnerableFiles = st.vulnerableFiles
    ∨ ∃ fd, (dropboxHandleEntry st e).vulnerableFiles = st.vulnerableFiles ++ [fd]
        ∧ fd.file = convertEntry e
        ∧ fd.risks = analyzeFileName (convertEntry e)
        ∧ fd.risks ≠ []
        ∧ fd.file.type = some "file" := by
  by_cases h1 : ((convertEntry e).type == some "file") = true
  · by_cases h2 : 0 < (analyzeFileName (convertEntry e)).length
    · refine Or.inr ⟨⟨convertEntry e, analyzeFileName (convertEntry e),
        getDropboxFolderPath e.path_display⟩, ?_, rfl, rfl,
        List.length_pos.mp h2, beq_iff_eq.mp h1⟩
      simp [dropboxHandleEntry, h1, h2]
    · exact Or.inl (by simp [dropboxHandleEntry, h1, h2])
  · exact Or.inl (by simp [dropboxHandleEntry, h1])

theorem driveHandleFile_vuln (api : DriveApi) (fuel : Nat) (st : ScanState)
    (file : FileRecord) :
    (driveHandleFile api fuel st file).vulnerableFiles = st.vulnerableFiles
    ∨ ∃ fd, (driveHandleFile api fuel st file).vulnerableFiles
          = st.vulnerableFiles ++ [fd]
        ∧ fd.file = file
        ∧ fd.risks = analyzeFileName file
        ∧ fd.risks ≠ [] := by
  by_cases h2 : 0 < (analyzeFileName file).length
  · refine Or.inr ⟨⟨file, analyzeFileName file,
      getFolderPath api fuel file.id file.parents⟩, ?_, rfl, rfl,
      List.length_pos.mp h2⟩
    simp [driveHandleFile, h2]
  · exact Or.inl (by simp [driveHandleFile, h2])

theorem dropboxListFiles_inv {Q : Finding → Prop}
    (hstep : ∀ s e, VulnInv Q s → VulnInv Q (dropboxHandleEntry s e)) :
    ∀ (pages : List (Except String DropboxPage)) (st st' : ScanState),
      VulnInv Q st → dropboxListFiles pages st = .ok st' → VulnInv Q st' := by
  intro pages
  induction pages with
  | nil =>
    intro st st' h hok
    cases hok
    exact h
  | cons q rest ih =>
    intro st st' h hok
    cases q with
    | error e => exact absurd hok (by simp [dropboxListFiles])
    | ok page =>
      have h1 : VulnInv Q { st with
          totalFilesFetched := st.totalFilesFetched + page.entries.length } := h
      have h2 : VulnInv Q (page.entries.foldl dropboxHandleEntry
          { st with totalFilesFetched := st.totalFilesFetched + page.entries.length }) :=
        foldl_preserve _ _ _ h1 (fun b a hb => hstep b a hb)
      by_cases hm : page.has_more = true
      · rw [show dropboxListFiles (.ok page :: rest) st
            = dropboxListFiles rest (page.entries.foldl dropboxHandleEntry
                { st with totalFilesFetched := st.totalFilesFetched + page.entries.length })
          from by simp [dropboxListFiles, hm]] at hok
        exact ih _ _ h2 hok
      · rw [show dropboxListFiles (.ok page :: rest) st
            = .ok (page.entries.foldl dropboxHandleEntry
                { st with totalFilesFetched := st.totalFilesFetched + page.entries.length })
          from by simp [dropboxListFiles, hm]] at hok
        cases hok
        exact h2

theorem driveListFiles_inv {Q : Finding → Prop} (api : DriveApi) (fuel : Nat)
    (hstep : ∀ s f, VulnInv Q s → VulnInv Q (driveHandleFile api fuel s f)) :
    ∀ (pages : List (Except String DrivePage)) (st st' : ScanState),
      VulnInv Q st → driveListFiles api fuel pages st = .ok st' → VulnInv Q st' := by
  intro pages
  induction pages with
  | nil =>
    intro st st' h hok
    cases hok
    exact h
  | cons q rest ih =>
    intro st st' h hok
    cases q with
    | error e => exact absurd hok (by simp [driveListFiles])
    | ok page =>
      have h1 : VulnInv Q { st with
          totalFilesFetched := st.totalFilesFetched + page.files.length } := h
      have h2 : VulnInv Q (page.files.foldl (driveHandleFile api fuel)
          { st with totalFilesFetched := st.totalFilesFetched + page.files.length }) :=
        foldl_preserve _ _ _ h1 (fun b a hb => hstep b a hb)
      by_cases hm : page.hasNext = true
      · rw [show driveListFiles api fuel (.ok page :: rest) st
            = driveListFiles api fuel rest (page.files.foldl (driveHandleFile api fuel)
                { st with totalFilesFetched := st.totalFilesFetched + page.files.length })
          from by simp [driveListFiles, hm]] at hok
        exact ih _ _ h2 hok
      · rw [show driveListFiles api fuel (.ok page :: rest) st
            = .ok (page.files.foldl (driveHandleFile api fuel)
                { st with totalFilesFetched := st.totalFilesFetched + page.files.length })
          from by simp [driveListFiles, hm]] at hok
        cases hok
        exact h2

theorem analyzeFileName_sev (f : FileRecord) :
    ∀ rk ∈ analyzeFileName f, sevValid rk.severity := by
  intro rk hrk
  have heq := analyze_foldl_eq f.name riskPatterns []
  rw [analyzeFileName] at hrk
  rw [heq] at hrk
  simp only [List.nil_append, List.mem_map] at hrk
  obtain ⟨rule, hrule, hmk⟩ := hrk
  have hmem : rule ∈ riskPatterns := List.mem_of_mem_filter hrule
  have hall : ∀ r ∈ riskPatterns, sevValid r.severity := by decide
  rw [← hmk]
  exact hall rule hmem

/-- C3: after scanAllFiles completes, the findings list is exactly the stable
sort of the discovery-ordered findings by descending maximum severity (with
HIGH mapped to 3, MEDIUM to 2, LOW to 1 by severityOrder): consecutive
maximum severities never increase, each equal-maximum-severity class keeps
its discovery order, and nothing is added or dropped. -/
theorem findings_sorted_desc_stable (api : DriveApi) (fuel : Nat)
    (pages : List (Except String DrivePage)) (now : String) :
    driveScanVuln api fuel pages now = sortVulnerable (driveDiscovered api fuel pages)
    ∧ (driveScanVuln api fuel pages now).Pairwise
        (fun a b => maxSeverity b ≤ maxSeverity a)
    ∧ (∀ k, sevFilter k (driveScanVuln api fuel pages now)
        = sevFilter k (driveDiscovered api fuel pages))
    ∧ (driveScanVuln api fuel pages now).Perm (driveDiscovered api fuel pages) := by
  have heq : driveScanVuln api fuel pages now
      = sortVulnerable (driveDiscovered api fuel pages) := by
    unfold driveScanVuln driveScanAllFiles driveDiscovered
    cases driveListFiles api fuel pages initState <;> simp [sortVulnerable]
  refine ⟨heq, ?_, ?_, ?_⟩
  · rw [heq]
    exact sortVulnerable_pairwise _
  · intro k
    rw [heq]
    exact sortVulnerable_sevFilter _ k
  · rw [heq]
    exact sortVulnerable_perm _

/-- C1 (amended): in the Dropbox scanner every finding comes from a record
whose tag is file, so folder records are never classified there; the Drive
scanner however applies the classifier to every record, folders included
(see the counterexample theorem). -/
theorem dropbox_folders_never_classified (pages : List (Except String DropboxPage))
    (now : String) (fd : Finding) (h : fd ∈ dropboxScanVuln pages now) :
    fd.file.type = some "file" := by
  cases hls : dropboxListFiles pages initState with
  | error e =>
    simp only [dropboxScanVuln, dropboxScanAllFiles, hls] at h
    simp at h
  | ok st =>
    cases hbt : dropboxBuildFileTree st.allFiles with
    | none =>
      simp only [dropboxScanVuln, dropboxScanAllFiles, hls, hbt] at h
      simp at h
    | some tree =>
      simp only [dropboxScanVuln, dropboxScanAllFiles, hls, hbt] at h
      have hmem : fd ∈ st.vulnerableFiles := (sortVulnerable_perm _).mem_iff.mp h
      have hstep : ∀ s e, VulnInv (fun fd => fd.file.type = some "file") s →
          VulnInv (fun fd => fd.file.type = some "file") (dropboxHandleEntry s e) := by
        intro s e hs
        refine step_vuln_inv ?_ hs
        rcases dropboxHandleEntry_vuln s e with h' | ⟨fd', h1, _, _, _, h5⟩
        · exact Or.inl h'
        · exact Or.inr ⟨fd', h1, h5⟩
      have hinv := dropboxListFiles_inv hstep pages initState st
        (by intro z hz; simp [initState] at hz) hls
      exact hinv fd hmem

theorem dropbox_folders_never_classified_witness :
    c1Finding ∈ dropboxScanVuln c1Pages "t0" ∧ c1Finding.file.type = some "file" :=
  ⟨by decide, dropbox_folders_never_classified c1Pages "t0" c1Finding (by decide)⟩

/-- C1 counterexample: the Drive scanner applies the classifier to folder
records too; this folder record (mime type application/vnd.google-apps.folder,
name matching the password rule) is the sole entry of vulnerableFiles, so the
claim that folders never produce findings is false for the Drive variant. -/
theorem drive_folder_in_findings :
    (driveScanVuln nullApi 1 [.ok { files := [c1DriveFolder], hasNext := false }] "t0").map
        (fun fd => fd.file) = [c1DriveFolder]
    ∧ c1DriveFolder.mimeType = some driveFolderMime := by
  constructor
  · decide
  · rfl

/-- C5 (amended): a failure of the first metadata lookup (the file's own
primary parent) resolves the path to the root path, and no lookup failure
ever aborts the enumeration (driveListFiles succeeds whenever every page
fetch succeeds, whatever the api answers); but a failure deeper in the
ancestor chain yields a partial path rather than the root path, as the
counterexample shows. -/
theorem lookup_failure_degrades_locally :
    (∀ (api : DriveApi) (fuel : Nat) (fileId p0 : String) (ps : List String),
      api.getFile p0 = none →
        getFolderPath api (fuel + 1) fileId (some (p0 :: ps)) = "/")
    ∧ (∀ (api : DriveApi) (fuel : Nat) (pages : List (Except String DrivePage))
          (st : ScanState), allOkDrive pages = true →
        exceptOk (driveListFiles api fuel pages st) = true) := by
  constructor
  · intro api fuel fileId p0 ps h
    simp [getFolderPath, h]
  · intro api fuel pages
    induction pages with
    | nil =>
      intro st _
      rfl
    | cons q rest ih =>
      intro st hall
      cases q with
      | error e => simp [allOkDrive, exceptOk] at hall
      | ok page =>
        have hrest : allOkDrive rest = true := by
          simp [allOkDrive] at hall ⊢
          exact hall.2
        by_cases hm : page.hasNext = true
        · rw [show driveListFiles api fuel (.ok page :: rest) st
              = driveListFiles api fuel rest (page.files.foldl (driveHandleFile api fuel)
                  { st with totalFilesFetched := st.totalFilesFetched + page.files.length })
            from by simp [driveListFiles, hm]]
          exact ih _ hrest
        · rw [show driveListFiles api fuel (.ok page :: rest) st
              = .ok (page.files.foldl (driveHandleFile api fuel)
                  { st with totalFilesFetched := st.totalFilesFetched + page.files.length })
            from by simp [driveListFiles, hm]]
          rfl

theorem lookup_failure_degrades_locally_witness :
    getFolderPath c5Api 1 "f0" (some ["p3"]) = "/"
    ∧ exceptOk (driveListFiles nullApi 1 [.ok { files := [c1DriveFolder], hasNext := false }]
        initState) = true :=
  ⟨lookup_failure_degrades_locally.1 c5Api 0 "f0" "p3" [] rfl,
   lookup_failure_degrades_locally.2 nullApi 1 _ initState rfl⟩

/-- C5 counterexample: the catch sits at each recursion level, so when the
lookup of a deeper ancestor (p2) fails, only that level degrades to the root
path and the overall result is the partial path /docs/, not the root path /
the claim requires. -/
theorem deep_lookup_failure_partial_path :
    c5Api.getFile "p2" = none
    ∧ c5Api.getFile "p1" = some { name := "docs", parents := some ["p2"] }
    ∧ getFolderPath c5Api 5 "f0" (some ["p1"]) = "/docs/"
    ∧ getFolderPath c5Api 5 "f0" (some ["p1"]) ≠ "/" := by
  refine ⟨rfl, rfl, by decide, by decide⟩

/-- C9: every finding of a completed scan, Drive or Dropbox, carries a
non-empty risks list, and every risk's severity is HIGH, MEDIUM or LOW, so
the comparator fallback ordinal 0 is never used. -/
theorem findings_nonempty_valid_severity (api : DriveApi) (fuel : Nat)
    (dpages : List (Except String DrivePage))
    (bpages : List (Except String DropboxPage)) (now : String) :
    (∀ fd ∈ driveScanVuln api fuel dpages now,
      fd.risks ≠ [] ∧ ∀ rk ∈ fd.risks, sevValid rk.severity)
    ∧ (∀ fd ∈ dropboxScanVuln bpages now,
      fd.risks ≠ [] ∧ ∀ rk ∈ fd.risks, sevValid rk.severity) := by
  have hstepD : ∀ s f, VulnInv (fun fd => fd.risks ≠ []
        ∧ ∀ rk ∈ fd.risks, sevValid rk.severity) s →
      VulnInv (fun fd => fd.risks ≠ [] ∧ ∀ rk ∈ fd.risks, sevValid rk.severity)
        (driveHandleFile api fuel s f) := by
    intro s f hs
    refine step_vuln_inv ?_ hs
    rcases driveHandleFile_vuln api fuel s f with h' | ⟨fd', h1, _, h3, h4⟩
    · exact Or.inl h'
    · refine Or.inr ⟨fd', h1, h4, ?_⟩
      rw [h3]
      exact analyzeFileName_sev f
  have hstepB : ∀ s e, VulnInv (fun fd => fd.risks ≠ []
        ∧ ∀ rk ∈ fd.risks, sevValid rk.severity) s →
      VulnInv (fun fd => fd.risks ≠ [] ∧ ∀ rk ∈ fd.risks, sevValid rk.severity)
        (dropboxHandleEntry s e) := by
    intro s e hs
    refine step_vuln_inv ?_ hs
    rcases dropboxHandleEntry_vuln s e with h' | ⟨fd', h1, _, h3, h4, _⟩
    · exact Or.inl h'
    · refine Or.inr ⟨fd', h1, h4, ?_⟩
      rw [h3]
      exact analyzeFileName_sev (convertEntry e)
  constructor
  · intro fd h
    cases hls : driveListFiles api fuel dpages initState with
    | error e =>
      simp only [driveScanVuln, driveScanAllFiles, hls] at h
      simp at h
    | ok st =>
      simp only [driveScanVuln, driveScanAllFiles, hls] at h
      have hmem : fd ∈ st.vulnerableFiles := (sortVulnerable_perm _).mem_iff.mp h
      exact driveListFiles_inv api fuel hstepD dpages initState st
        (by intro z hz; simp [initState] at hz) hls fd hmem
  · intro fd h
    cases hls : dropboxListFiles bpages initState with
    | error e =>
      simp only [dropboxScanVuln, dropboxScanAllFiles, hls] at h
      simp at h
    | ok st =>
      cases hbt : dropboxBuildFileTree st.allFiles with
      | none =>
        simp only [dropboxScanVuln, dropboxScanAllFiles, hls, hbt] at h
        simp at h
      | some tree =>
        simp only [dropboxScanVuln, dropboxScanAllFiles, hls, hbt] at h
        have hmem : fd ∈ st.vulnerableFiles := (sortVulnerable_perm _).mem_iff.mp h
        exact dropboxListFiles_inv hstepB bpages initState st
          (by intro z hz; simp [initState] at hz) hls fd hmem

theorem findings_nonempty_valid_severity_witness :
    c9Finding ∈ driveScanVuln nullApi 1 c9Pages "t0"
    ∧ c9Finding.risks ≠ []
    ∧ sevValid c9Risk.severity := by
  have hmem : c9Finding ∈ driveScanVuln nullApi 1 c9Pages "t0" := by decide
  have hmain := (findings_nonempty_valid_severity nullApi 1 c9Pages c1Pages "t0").1
    c9Finding hmem
  exact ⟨hmem, hmain.1, hmain.2 c9Risk (by decide)⟩

theorem foldl_preserve_mem {α β : Type} {P : β → Prop} (step : β → α → β) (l : List α)
    (init : β) (h0 : P init) (hstep : ∀ b a, a ∈ l → P b → P (step b a)) :
    P (l.foldl step init) := by
  induction l generalizing init with
  | nil => exact h0
  | cons x xs ih =>
    exact ih (step init x) (hstep init x (List.mem_cons_self x xs) h0)
      (fun b a ha hb => hstep b a (List.mem_cons_of_mem x ha) hb)

theorem mem_objSet {α : Type} {p : String × α} :
    ∀ {m : List (String × α)} {k : String} {v : α},
      p ∈ objSet m k v → p = (k, v) ∨ p ∈ m := by
  intro m
  induction m with
  | nil =>
    intro k v h
    simpa [objSet] using h
  | cons q rest ih =>
    intro k v h
    obtain ⟨k', v'⟩ := q
    by_cases hk : k' = k
    · rw [show objSet ((k', v') :: rest) k v = (k, v) :: rest from by
        simp [objSet, hk]] at h
      rcases List.mem_cons.mp h with rfl | h
      · exact Or.inl rfl
      · exact Or.inr (List.mem_cons_of_mem _ h)
    · rw [show objSet ((k', v') :: rest) k v = (k', v') :: objSet rest k v from by
        simp [objSet, hk]] at h
      rcases List.mem_cons.mp h with rfl | h
      · exact Or.inr (List.mem_cons_self _ _)
      · rcases ih h with h | h
        · exact Or.inl h
        · exact Or.inr (List.mem_cons_of_mem _ h)

theorem assocGet_mem {α : Type} {m : List (String × α)} {k : String} {v : α}
    (h : assocGet m k = some v) : (k, v) ∈ m := by
  unfold assocGet at h
  cases hf : m.find? (fun p => p.1 == k) with
  | none =>
    rw [hf] at h
    simp at h
  | some q =>
    rw [hf] at h
    have hq : q ∈ m := List.mem_of_find?_eq_some hf
    have hk' := List.find?_some hf
    have hk : (q.1 == k) = true := hk'

    have hv : q.2 = v := by simpa using h
    have hqe : q = (k, v) := by
      obtain ⟨q1, q2⟩ := q
      simp only [beq_iff_eq] at hk
      simp at hv
      simp [hk, hv]
    rwa [hqe] at hq

theorem attachFolder_eq (acc : DriveTree) (f : FileRecord) :
    attachFolder acc f = attachGeneric (fun g => .folderRef g.id) acc f := rfl

theorem attachFile_eq (acc : DriveTree) (f : FileRecord) :
    attachFile acc f = attachGeneric (fun g => .fileLeaf (fileLeafOf g)) acc f := rfl

theorem attachGeneric_preserve {allF : List FileRecord} {f : FileRecord} {q : String}
    {qs : List String}
    (hpar : f.parents = some (q :: qs)) (hq1 : q ≠ "root") (hq2 : q ≠ "")
    (hq3 : q ∉ folderIds allF) (huniq : ∀ g' ∈ allF, g'.id = f.id → g' = f)
    (ref : FileRecord → TreeRef) (href : ∀ g, refId (ref g) = g.id)
    {t : DriveTree} {g : FileRecord} (hg : g ∈ allF)
    (hP : cacheKeysOk allF t ∧ noRefTo f.id t) :
    cacheKeysOk allF (attachGeneric ref t g) ∧ noRefTo f.id (attachGeneric ref t g) := by
  obtain ⟨hkeys, hno⟩ := hP
  obtain ⟨hno1, hno2⟩ := hno
  have hrootAttach : g ≠ f →
      cacheKeysOk allF { t with rootChildren := objSet t.rootChildren g.name (ref g) }
      ∧ noRefTo f.id { t with rootChildren := objSet t.rootChildren g.name (ref g) } := by
    intro hgf
    refine ⟨hkeys, ?_, hno2⟩
    intro p hp
    rcases mem_objSet hp with rfl | hp
    · show refId (ref g) ≠ f.id
      rw [href g]
      intro heq
      exact hgf (huniq g hg heq)
    · exact hno1 p hp
  cases hgp : g.parents with
  | none =>
    have hgf : g ≠ f := by
      intro h
      rw [h, hpar] at hgp
      cases hgp
    rw [show attachGeneric ref t g
        = { t with rootChildren := objSet t.rootChildren g.name (ref g) } from by
      simp [attachGeneric, hgp]]
    exact hrootAttach hgf
  | some l =>
    cases hl : l with
    | nil =>
      have hgf : g ≠ f := by
        intro h
        rw [h, hpar] at hgp
        injection hgp with hgp'
        rw [← hgp'] at hl
        cases hl
      rw [show attachGeneric ref t g
          = { t with rootChildren := objSet t.rootChildren g.name (ref g) } from by
        simp [attachGeneric, hgp, hl]]
      exact hrootAttach hgf
    | cons p0 ps0 =>
      rw [hl] at hgp
      by_cases hp0 : p0 = "root" ∨ p0 = ""
      · have hgf : g ≠ f := by
          intro h
          rw [h, hpar] at hgp
          injection hgp with hgp'
          injection hgp' with h1 h2
          rcases hp0 with h' | h' <;> rw [← h1] at h'
          · exact hq1 h'
          · exact hq2 h'
        rw [show attachGeneric ref t g
            = { t with rootChildren := objSet t.rootChildren g.name (ref g) } from by
          simp [attachGeneric, hgp, hp0]]
        exact hrootAttach hgf
      · cases hget : assocGet t.cache p0 with
        | none =>
          rw [show attachGeneric ref t g = t from by
            simp [attachGeneric, hgp, hp0, hget]]
          exact ⟨hkeys, hno1, hno2⟩
        | some entry =>
          have hp0mem : (p0, entry) ∈ t.cache := assocGet_mem hget
          have hp0ids : p0 ∈ folderIds allF := hkeys _ hp0mem
          have hgf : g ≠ f := by
            intro h
            rw [h, hpar] at hgp
            injection hgp with hgp'
            injection hgp' with h1 h2
            rw [h1] at hq3
            exact hq3 hp0ids
          rw [show attachGeneric ref t g = { t with cache := objSet t.cache p0 { entry with children := objSet entry.children g.name (ref g) } } from by
            simp [attachGeneric, hgp, hp0, hget]]
          refine ⟨?_, hno1, ?_⟩
          · intro ce hce
            rcases mem_objSet hce with rfl | hce
            · exact hp0ids
            · exact hkeys ce hce
          · intro ce hce p hp
            rcases mem_objSet hce with rfl | hce
            · rcases mem_objSet hp with rfl | hp
              · show refId (ref g) ≠ f.id
                rw [href g]
                intro heq
                exact hgf (huniq g hg heq)
              · exact hno2 (p0, entry) hp0mem p hp
            · exact hno2 ce hce p hp

theorem cache0_spec (allF : List FileRecord) :
    ∀ ce ∈ (allF.filter (fun g => g.mimeType == some driveFolderMime)).foldl
      (fun c g => objSet c g.id
        { name := g.name, children := [], id := g.id, parents := g.parents.getD [] })
      ([] : List (String × FolderEntry)),
      ce.1 ∈ folderIds allF ∧ ce.2.children = [] := by
  have h := foldl_preserve_mem
    (P := fun c : List (String × FolderEntry) =>
      ∀ ce ∈ c, ce.1 ∈ folderIds allF ∧ ce.2.children = [])
    (fun c g => objSet c g.id
      { name := g.name, children := [], id := g.id, parents := g.parents.getD [] })
    (allF.filter (fun g => g.mimeType == some driveFolderMime)) []
    (by intro ce hce; simp at hce)
    (by
      intro c g hgmem hc ce hce
      rcases mem_objSet hce with rfl | hce
      · exact ⟨List.mem_map_of_mem _ hgmem, rfl⟩
      · exact hc ce hce)
  exact h

/-- C2 (amended): in the parent-graph tree builder a record whose first
parent id is neither root nor empty nor the id of any fetched folder record
is attached nowhere: no children map, neither the root's nor any cached
folder's, references its id.  Such records are silently dropped from the
built tree rather than attached to the root. -/
theorem unknown_parent_record_dropped (allFiles : List FileRecord) (f : FileRecord)
    (q : String) (qs : List String)
    (hmem : f ∈ allFiles) (hpar : f.parents = some (q :: qs))
    (hq1 : q ≠ "root") (hq2 : q ≠ "") (hq3 : q ∉ folderIds allFiles)
    (huniq : ∀ g ∈ allFiles, g.id = f.id → g = f) :
    (∀ p ∈ (driveBuildFileTree allFiles).rootChildren, refId p.2 ≠ f.id)
    ∧ ∀ ce ∈ (driveBuildFileTree allFiles).cache,
        ∀ p ∈ ce.2.children, refId p.2 ≠ f.id := by
  have h0 := cache0_spec allFiles
  have hinit : cacheKeysOk allFiles
        { rootChildren := [],
          cache := (allFiles.filter (fun g => g.mimeType == some driveFolderMime)).foldl
            (fun c g => objSet c g.id
              { name := g.name, children := [], id := g.id,
                parents := g.parents.getD [] }) [] }
      ∧ noRefTo f.id
        { rootChildren := [],
          cache := (allFiles.filter (fun g => g.mimeType == some driveFolderMime)).foldl
            (fun c g => objSet c g.id
              { name := g.name, children := [], id := g.id,
                parents := g.parents.getD [] }) [] } := by
    refine ⟨?_, ?_, ?_⟩
    · intro ce hce
      exact (h0 ce hce).1
    · intro p hp
      simp at hp
    · intro ce hce p hp
      rw [(h0 ce hce).2] at hp
      simp at hp
  have h1 := foldl_preserve_mem
    (P := fun t => cacheKeysOk allFiles t ∧ noRefTo f.id t) attachFolder
    (allFiles.filter (fun g => g.mimeType == some driveFolderMime)) _ hinit
    (fun t g hgmem ht => by
      rw [attachFolder_eq]
      exact attachGeneric_preserve hpar hq1 hq2 hq3 huniq (fun g => .folderRef g.id)
        (fun g => rfl) (List.mem_of_mem_filter hgmem) ht)
  have h2 := foldl_preserve_mem
    (P := fun t => cacheKeysOk allFiles t ∧ noRefTo f.id t) attachFile
    (allFiles.filter (fun g => !(g.mimeType == some driveFolderMime))) _ h1
    (fun t g hgmem ht => by
      rw [attachFile_eq]
      exact attachGeneric_preserve hpar hq1 hq2 hq3 huniq
        (fun g => .fileLeaf (fileLeafOf g)) (fun g => rfl)
        (List.mem_of_mem_filter hgmem) ht)
  unfold driveBuildFileTree
  simp only []
  exact ⟨h2.2.1, h2.2.2⟩

theorem unknown_parent_record_dropped_witness :
    ("A", TreeRef.folderRef "fa") ∈ (driveBuildFileTree c2Files).rootChildren
    ∧ refId (TreeRef.folderRef "fa") ≠ "x1" := by
  have h := unknown_parent_record_dropped c2Files c2File "missing" [] (by decide) rfl
    (by decide) (by decide) (by decide) (by decide)
  exact ⟨by decide, h.1 ("A", .folderRef "fa") (by decide)⟩

/-- C2 counterexample: a single file record whose parent id resolves to no
fetched folder is dropped entirely: the built tree has an empty root children
map (the record was not attached to the root as the claim states) and an
empty cache. -/
theorem unknown_parent_dropped_counterexample :
    driveBuildFileTree [c2File] = { rootChildren := [], cache := [] }
    ∧ c2File.parents = some ["missing"] := ⟨by decide, rfl⟩

/-- C6: on the scenario record set, paths a/b/secret.key and a/c/readme.txt
with their folder records, the flat-path tree builder yields exactly the tree
whose root has the single child folder a, holding folders b and c, which hold
the leaves secret.key and readme.txt; every non-final path segment became a
folder node and the final segment the record's node. -/
theorem flat_path_tree_scenario :
    dropboxBuildFileTree c6Records = some c6Expected := by rfl

theorem jStrList_map (ps : List String) : jStrList (ps.map Json.str) = some ps := by
  induction ps with
  | nil => rfl
  | cons s rest ih => simp [jStrList, ih]

theorem decodeFileRecord_encode (f : FileRecord) :
    decodeFileRecord (encodeFileRecord f) = some f := by
  obtain ⟨id, name, mt, pa, ty, sz, mo, pr⟩ := f
  cases mt <;> cases pa <;> cases ty <;> cases sz <;> cases mo <;> cases pr <;>
    simp [encodeFileRecord, decodeFileRecord, optField, takeStr, takeNat,
      takeStrList, jStrList_map]

theorem decodeRisk_encode (r : Risk) : decodeRisk (encodeRisk r) = some r := by
  obtain ⟨a, b, c, d⟩ := r
  rfl

theorem decodeRisks_encode (rs : List Risk) :
    decodeRisks (rs.map encodeRisk) = some rs := by
  induction rs with
  | nil => rfl
  | cons r rest ih => simp [decodeRisks, decodeRisk_encode, ih]

theorem decodeFinding_encode (fd : Finding) :
    decodeFinding (encodeFinding fd) = some fd := by
  obtain ⟨f, rs, fp⟩ := fd
  simp [encodeFinding, decodeFinding, decodeFileRecord_encode, decodeRisks_encode]

theorem decodeFindings_encode (fds : List Finding) :
    decodeFindings (fds.map encodeFinding) = some fds := by
  induction fds with
  | nil => rfl
  | cons fd rest ih => simp [decodeFindings, decodeFinding_encode, ih]

theorem decodeSummary_encode (s : Summary) :
    decodeSummary (encodeSummary s) = some s := by
  obtain ⟨a, b, c, d⟩ := s
  rfl

mutual
theorem decodeDNode_encode : ∀ n : DNode, decodeDNode (encodeDNode n) = some n
  | .file name id mt sz mo => by
    cases mt <;> cases sz <;> cases mo <;>
      simp [encodeDNode, decodeDNode, optField, takeStr, takeNat]
  | .folder name ch id path parents => by
    have hch := decodeDChildren_encode ch
    cases path <;> cases parents <;>
      simp [encodeDNode, decodeDNode, optField, takeStr, takeStrList,
        jStrList_map, hch]
theorem decodeDChildren_encode :
    ∀ ch : DChildren, decodeDChildren (encodeDChildren ch) = some ch
  | .nil => rfl
  | .cons k n rest => by
    have hn := decodeDNode_encode n
    have hr := decodeDChildren_encode rest
    simp [encodeDChildren, decodeDChildren, hn, hr]
end

theorem decodeScanResults_encode (r : ScanResults) :
    decodeScanResults (encodeScanResults r) = some r := by
  obtain ⟨fds, tree, sm⟩ := r
  simp [encodeScanResults, decodeScanResults, decodeFindings_encode,
    decodeDNode_encode, decodeSummary_encode]

theorem assocGet_cons {α : Type} (k' : String) (v' : α) (rest : List (String × α))
    (k : String) :
    assocGet ((k', v') :: rest) k = if k' = k then some v' else assocGet rest k := by
  by_cases h : k' = k
  · simp [assocGet, List.find?, h]
  · have hb : (k' == k) = false := by simp [h]
    simp [assocGet, List.find?, hb, h]

theorem assocGet_objSet {α : Type} (m : List (String × α)) (k : String) (v : α) :
    assocGet (objSet m k v) k = some v := by
  induction m with
  | nil => simp [objSet, assocGet, List.find?]
  | cons q rest ih =>
    obtain ⟨k', v'⟩ := q
    by_cases hk : k' = k
    · rw [show objSet ((k', v') :: rest) k v = (k, v) :: rest from by
        simp [objSet, hk]]
      simp [assocGet_cons]
    · rw [show objSet ((k', v') :: rest) k v = (k', v') :: objSet rest k v from by
        simp [objSet, hk]]
      rw [assocGet_cons, if_neg hk]
      exact ih

/-- C7: saving a ScanResult to the snapshot cache under a provider key and
loading that key back yields a ScanResult equal by value to the original,
in particular in its vulnerableFiles list and its fileTree. -/
theorem snapshot_roundtrip (key : String) (r : ScanResults) (store : Store) :
    loadSnapshot key (saveSnapshot key r store) = some r
    ∧ (loadSnapshot key (saveSnapshot key r store)).map
        (fun x => x.vulnerableFiles) = some r.vulnerableFiles
    ∧ (loadSnapshot key (saveSnapshot key r store)).map
        (fun x => x.fileTree) = some r.fileTree := by
  have h : loadSnapshot key (saveSnapshot key r store) = some r := by
    unfold loadSnapshot saveSnapshot
    rw [assocGet_objSet]
    simp [decodeScanResults_encode]
  exact ⟨h, by rw [h]; rfl, by rw [h]; rfl⟩

theorem driveListFiles_fails (api : DriveApi) (fuel : Nat) :
    ∀ (pages : List (Except String DrivePage)), driveEnumFails pages = true →
      ∀ st, ∃ e, driveListFiles api fuel pages st = .error e := by
  intro pages
  induction pages with
  | nil =>
    intro h
    simp [driveEnumFails] at h
  | cons q rest ih =>
    intro h st
    cases q with
    | error e => exact ⟨e, rfl⟩
    | ok page =>
      have hand := h
      simp only [driveEnumFails, Bool.and_eq_true] at hand
      obtain ⟨hn, hr⟩ := hand
      obtain ⟨e, he⟩ := ih hr (page.files.foldl (driveHandleFile api fuel)
        { st with totalFilesFetched := st.totalFilesFetched + page.files.length })
      refine ⟨e, ?_⟩
      rw [show driveListFiles api fuel (.ok page :: rest) st
          = driveListFiles api fuel rest (page.files.foldl (driveHandleFile api fuel)
              { st with totalFilesFetched := st.totalFilesFetched + page.files.length })
        from by simp [driveListFiles, hn]]
      exact he

theorem dropboxListFiles_fails :
    ∀ (pages : List (Except String DropboxPage)), dropboxEnumFails pages = true →
      ∀ st, ∃ e, dropboxListFiles pages st = .error e := by
  intro pages
  induction pages with
  | nil =>
    intro h
    simp [dropboxEnumFails] at h
  | cons q rest ih =>
    intro h st
    cases q with
    | error e => exact ⟨e, rfl⟩
    | ok page =>
      have hand := h
      simp only [dropboxEnumFails, Bool.and_eq_true] at hand
      obtain ⟨hn, hr⟩ := hand
      obtain ⟨e, he⟩ := ih hr (page.entries.foldl dropboxHandleEntry
        { st with totalFilesFetched := st.totalFilesFetched + page.entries.length })
      refine ⟨e, ?_⟩
      rw [show dropboxListFiles (.ok page :: rest) st
          = dropboxListFiles rest (page.entries.foldl dropboxHandleEntry
              { st with totalFilesFetched := st.totalFilesFetched + page.entries.length })
        from by simp [dropboxListFiles, hn]]
      exact he

/-- C8: when the enumeration reaches a failed page fetch the error propagates
out of scanAllFiles for either provider: no ScanResult is produced, the scan
command receives exactly that error, and no snapshot is written (the store is
unchanged). -/
theorem page_fetch_error_aborts (api : DriveApi) (fuel : Nat)
    (dpages : List (Except String DrivePage))
    (bpages : List (Except String DropboxPage)) (now : String) (store : Store)
    (hd : driveEnumFails dpages = true) (hb : dropboxEnumFails bpages = true) :
    exceptOk (driveScanAllFiles api fuel dpages now) = false
    ∧ exceptOk (dropboxScanAllFiles bpages now) = false
    ∧ (dropboxScanAction bpages now store).1 = dropboxScanAllFiles bpages now
    ∧ (dropboxScanAction bpages now store).2 = store := by
  obtain ⟨e1, he1⟩ := driveListFiles_fails api fuel dpages hd initState
  obtain ⟨e2, he2⟩ := dropboxListFiles_fails bpages hb initState
  have hds : driveScanAllFiles api fuel dpages now = .error e1 := by
    unfold driveScanAllFiles
    rw [he1]
  have hbs : dropboxScanAllFiles bpages now = .error e2 := by
    unfold dropboxScanAllFiles
    rw [he2]
  refine ⟨?_, ?_, ?_, ?_⟩
  · rw [hds]
    rfl
  · rw [hbs]
    rfl
  · unfold dropboxScanAction
    rw [hbs]
  · unfold dropboxScanAction
    rw [hbs]

theorem page_fetch_error_aborts_witness :
    exceptOk (driveScanAllFiles nullApi 1 c8DrivePages "t0") = false
    ∧ exceptOk (dropboxScanAllFiles c8Pages "t0") = false
    ∧ (dropboxScanAction c8Pages "t0" []).2 = ([] : Store) := by
  have h := page_fetch_error_aborts nullApi 1 c8DrivePages c8Pages "t0" [] rfl rfl
  exact ⟨h.1, h.2.1, h.2.2.2⟩

end CloudScanner

